import Mathlib

/-!
Verification of the UCP Flower Shop checkout lifecycle engine
(`src/server.js`, hardened variant: the one with idempotency middleware,
expiry checks and line-item validation).

Shallow embedding conventions:
* JSON numbers (in particular line-item quantities, which the code never
  checks for integrality) are modelled as `ℚ` with exact arithmetic;
  catalog prices and millisecond timestamps, which are integers at every
  occurrence in the source, stay `Int` / `Nat`.  `Math.round` is
  Mathlib's `round` (`⌊x + 1/2⌋`, round half up, matching JS `Math.round`
  up to the double-precision error of the source's float computation).
* JS `Map` objects become association lists with first-match lookup;
  `Map.set` is modelled by consing after deleting the key.
* Object identity of the one mutable sub-object shared between a stored
  session and its cached responses — the session's `buyer`, which the
  update handler mutates in place (`checkout.buyer.email = …`,
  `checkout.buyer.full_name = …`) while every other field is only ever
  rebound — is modelled by a heap `buyerObjs : List (Nat × Buyer)` of
  buyer objects addressed by an allocated `buyerId` carried in each
  session; a cached response body stores the session snapshot with its
  `buyerId`, and serving a replay re-reads the buyer object
  (`renderBody`), exactly as JS serializes the aliased object at reply
  time.
* Truthiness of optional strings / numbers (`!buyer?.email`,
  `!item.quantity`) is modelled by `truthyStr` / `truthyNum`.
* `Date.now()` is an explicit `now : Nat` parameter, one per request;
  `` `chk_${Date.now()}` `` is `chkId now` built with the decimal
  renderer `natStr` (same rendering as JS template interpolation).
* Fallible handlers (`try`/`catch` around `throw new Error`) are
  `Except String` values.
* Request-independent constant fields of responses (the `ucp` metadata
  block, `links`, `payment` handlers) are omitted from the response body
  model: they are the same constants in every response, so equality of
  the modelled bodies coincides with equality of the full JSON bodies.

The `attribute` line below only restores default unfolding for a few
core `Rat` operations that Batteries marks `@[irreducible]`; this affects
elaboration only (the kernel ignores reducibility), and is needed so that
concrete executions of the model reduce under `decide`.
-/

attribute [local semireducible] Rat.mul Rat.add Rat.sub Rat.inv
  Rat.ofScientific

/-- One catalog product (`PRODUCTS` entry: `{ id, name, price, stock }`). -/
structure Product where
  id : String
  name : String
  price : Int
  stock : Int
deriving DecidableEq, Repr

/-- The fixed catalog `PRODUCTS` from `server.js` (prices in cents). -/
def PRODUCTS : List Product :=
  [ { id := "1", name := "Red Roses", price := 299, stock := 100 },
    { id := "2", name := "Pink Tulips", price := 199, stock := 80 },
    { id := "3", name := "White Lilies", price := 399, stock := 60 } ]

/-- A structured diagnostic message (`{ type, code, severity, content, path }`);
`severity` and `path` are absent on some messages (e.g. the confirmation). -/
structure Message where
  type : String
  code : String
  severity : Option String
  content : String
  path : Option String
deriving DecidableEq, Repr

/-- One entry of a totals list (`{ type, amount, display_text }`); the
single-entry totals stored inside a line item carry no `display_text`.
Amounts are JSON numbers, hence `ℚ`. -/
structure TotalEntry where
  type : String
  amount : ℚ
  display_text : Option String
deriving DecidableEq, Repr

/-- The product snapshot stored inside a line item (`{ id, title, price }`). -/
structure ItemSnap where
  id : String
  title : String
  price : Int
deriving DecidableEq, Repr

/-- A stored line item, as built by `createLineItem`.  The quantity is a
JSON number (`ℚ`): the source never checks integrality, so fractional
quantities can be stored. -/
structure LineItem where
  id : String
  item : ItemSnap
  quantity : ℚ
  totals : List TotalEntry
deriving DecidableEq, Repr

/-- Stored buyer contact data; fields are only ever set to sanitized
non-empty strings. -/
structure Buyer where
  email : Option String := none
  full_name : Option String := none
deriving DecidableEq, Repr

/-- The order stamped onto a session by `complete`. -/
structure Order where
  id : String
  permalink_url : String
deriving DecidableEq, Repr

/-- A stored checkout session (the `checkout` object of `server.js`).
`buyer` is the current value of the session's buyer object; `buyerId` is
that object's heap identity (cached response bodies alias it). -/
structure Checkout where
  id : String
  line_items : List LineItem
  buyer : Buyer
  buyerId : Nat
  currency : String
  totals : List TotalEntry
  messages : List Message
  expires_at : Nat
  status : String
  order : Option Order := none
deriving DecidableEq, Repr

/-- A response body: either the `ucpError` shape (`{ status, messages }`)
or a session snapshot spread (`{ ...checkout }`, possibly with the
`messages` field overridden, which is expressed by updating the record). -/
inductive Body where
  | err (status : String) (messages : List Message)
  | snap (c : Checkout)
deriving DecidableEq, Repr

/-- An HTTP response: status code plus modelled body. -/
structure Response where
  code : Nat
  body : Body
deriving DecidableEq, Repr

/-- The whole mutable server state: the `checkouts` map, the
`processedRequests` idempotency map, the global `lineItemCounter`, and
the heap of live buyer objects (`buyerObjs`, addressed by identities
allocated from `buyerCounter`) that cached bodies alias. -/
structure ServerState where
  checkouts : List (String × Checkout)
  processedRequests : List (String × Body)
  lineItemCounter : Nat
  buyerObjs : List (Nat × Buyer)
  buyerCounter : Nat
deriving DecidableEq, Repr

/-- The initial state of the process (empty maps, counters `0`). -/
def initState : ServerState :=
  { checkouts := [], processedRequests := [], lineItemCounter := 0,
    buyerObjs := [], buyerCounter := 0 }

/-! ### Association-list maps (the JS `Map` objects) -/

/-- Model of `Map.get`: first-match lookup in an association list. -/
def mget {κ α : Type} [DecidableEq κ] : List (κ × α) → κ → Option α
  | [], _ => none
  | (k', v) :: rest, k => if k = k' then some v else mget rest k

/-- Remove every entry with key `k`. -/
def mdel {κ α : Type} [DecidableEq κ] : List (κ × α) → κ → List (κ × α)
  | [], _ => []
  | (k', v) :: rest, k =>
      if k' = k then mdel rest k else (k', v) :: mdel rest k

/-- Model of `Map.set`: insert-or-replace. -/
def mset {κ α : Type} [DecidableEq κ] (m : List (κ × α)) (k : κ) (v : α) :
    List (κ × α) :=
  (k, v) :: mdel m k

/-! ### Decimal rendering of timestamps and counters

JS template interpolation renders integers in decimal.  `natStr` is a
fueled structural decimal renderer (the fuel makes it kernel-reducible);
`natStr n = toString n` on every input, e.g. `natStr 120 = "120"`. -/

/-- Fueled decimal digits of `n`, most significant first. -/
def natCharsAux : Nat → Nat → List Char
  | 0, _ => []
  | fuel + 1, n =>
      if n < 10 then [Nat.digitChar n]
      else natCharsAux fuel (n / 10) ++ [Nat.digitChar (n % 10)]

/-- Decimal rendering of a natural number. -/
def natStr (n : Nat) : String := String.mk (natCharsAux (n + 1) n)

/-- Session id for a session created at time `t` (`` `chk_${Date.now()}` ``). -/
def chkId (t : Nat) : String := "chk_" ++ natStr t

/-! ### Helper functions of `server.js` -/

/-- JS truthiness of an optional string (absent or `""` is falsy). -/
def truthyStr : Option String → Bool
  | none => false
  | some s => s != ""

/-- JS truthiness of an optional number (absent or `0` is falsy). -/
def truthyNum : Option ℚ → Bool
  | none => false
  | some q => q != 0

/-- Model of `String.prototype.trim`: strip leading and trailing whitespace
(structural char-list implementation, so that it kernel-reduces). -/
def jsTrim (s : String) : String :=
  String.mk
    (((s.data.dropWhile Char.isWhitespace).reverse.dropWhile
        Char.isWhitespace).reverse)

/-- Model of `String.prototype.toLowerCase` (ASCII case mapping, as `Char.toLower`). -/
def jsToLower (s : String) : String := String.mk (s.data.map Char.toLower)

/-- Model of `String.prototype.slice(0, n)` (JS counts UTF-16 units; modelled as
characters). -/
def jsTake (s : String) (n : Nat) : String := String.mk (s.data.take n)

/-- Model of `calculateTotals`: subtotal by `reduce`,
`tax = Math.round(subtotal * 0.08)` with Mathlib's round-half-up `round`
and `0.08 = 8/100` exactly, `total = subtotal + tax`. -/
def calculateTotals (lineItems : List LineItem) : List TotalEntry :=
  let subtotal : ℚ :=
    lineItems.foldl (fun sum it => sum + (it.item.price : ℚ) * it.quantity) 0
  let tax : ℤ := round (subtotal * (0.08 : ℚ))
  let total : ℚ := subtotal + (tax : ℚ)
  [ { type := "subtotal", amount := subtotal, display_text := some "Subtotal" },
    { type := "tax", amount := (tax : ℚ), display_text := some "Tax (8%)" },
    { type := "total", amount := total, display_text := some "Total" } ]

/-- Model of `createLineItem(productId, quantity)`: catalog lookup; on a miss returns
`none` without touching the counter; on a hit bumps the global counter and
snapshots the product.  Returns the item (if any) and the new counter. -/
def createLineItem (counter : Nat) (now : Nat) (productId : String)
    (quantity : ℚ) : Option LineItem × Nat :=
  match PRODUCTS.find? (fun p => p.id == productId) with
  | none => (none, counter)
  | some product =>
      let c := counter + 1
      (some { id := "li_" ++ natStr c ++ "_" ++ natStr now,
              item := { id := product.id, title := product.name,
                        price := product.price },
              quantity := quantity,
              totals := [ { type := "subtotal",
                            amount := (product.price : ℚ) * quantity,
                            display_text := none } ] },
       c)

/-- Model of `determineStatus(checkout)`. -/
def determineStatus (c : Checkout) : String :=
  if !truthyStr c.buyer.email || !truthyStr c.buyer.full_name then "incomplete"
  else if c.line_items.length = 0 then "incomplete"
  else "ready_for_complete"

/-- The `missing_buyer_email` diagnostic. -/
def missingEmailMsg : Message :=
  { type := "error", code := "missing_buyer_email", severity := some "recoverable",
    content := "Buyer email is required", path := some "$.buyer.email" }

/-- The `missing_buyer_name` diagnostic. -/
def missingNameMsg : Message :=
  { type := "error", code := "missing_buyer_name", severity := some "recoverable",
    content := "Buyer name is required", path := some "$.buyer.full_name" }

/-- The `not_ready` diagnostic returned by `complete` on a non-ready session. -/
def notReadyMsg : Message :=
  { type := "error", code := "not_ready", severity := some "requires_buyer_input",
    content := "Please add email and full name first", path := none }

/-- The confirmation message stored by a successful `complete`. -/
def orderConfirmedMsg : Message :=
  { type := "info", code := "order_confirmed", severity := none,
    content := "Order placed successfully!", path := none }

/-- Model of `validateCheckout(checkout)`: recomputed completeness diagnostics. -/
def validateCheckout (c : Checkout) : List Message :=
  (if truthyStr c.buyer.email then [] else [missingEmailMsg]) ++
  (if truthyStr c.buyer.full_name then [] else [missingNameMsg])

/-- Raw line-item input (`{ item: { id }, quantity }`); `itemId = none`
models a missing `item` object or missing `item.id`; the quantity is an
arbitrary JSON number (`ℚ`). -/
structure LineItemInput where
  itemId : Option String := none
  quantity : Option ℚ := none
deriving DecidableEq, Repr

/-- The per-item checks of `validateLineItems` (`forEach` body). -/
def validItem (it : LineItemInput) : Except String Unit :=
  if !truthyStr it.itemId || !truthyNum it.quantity then
    .error "Each line item must have item.id and quantity"
  else if it.quantity.getD 0 < 1 ∨ it.quantity.getD 0 > 100 then
    .error "Quantity must be between 1 and 100"
  else .ok ()

/-- The `forEach` over the items, stopping at the first thrown error. -/
def validateItems : List LineItemInput → Except String Unit
  | [] => .ok ()
  | it :: rest =>
      match validItem it with
      | .error e => .error e
      | .ok _ => validateItems rest

/-- Model of `validateLineItems(lineItems)`. -/
def validateLineItems (lineItems : List LineItemInput) : Except String Unit :=
  if lineItems.length = 0 then .error "line_items must be a non-empty array"
  else validateItems lineItems

/-- Test for `sanitizeEmail`'s regex `^[^\s@]+@[^\s@]+\.[^\s@]+$`: no whitespace,
exactly one `@` with a non-empty part before it, and after the `@` a `.`
that is neither the first nor the last character. -/
def emailShaped (s : String) : Bool :=
  let cs := s.data
  cs.all (fun c => !c.isWhitespace) &&
  cs.count '@' == 1 &&
  decide ((cs.takeWhile (fun c => c ≠ '@')).length ≥ 1) &&
  ((((cs.dropWhile (fun c => c ≠ '@')).drop 1).drop 1).dropLast.contains '.')

/-- Model of `sanitizeEmail(email)`: trim, lowercase, accept only if RFC-shaped. -/
def sanitizeEmail (email : Option String) : Option String :=
  match email with
  | none => none
  | some e =>
      if e = "" then none
      else
        let trimmed := jsToLower (jsTrim e)
        if emailShaped trimmed then some trimmed else none

/-- Model of `sanitizeName(name)`: trim and truncate to 100 characters. -/
def sanitizeName (name : Option String) : Option String :=
  match name with
  | none => none
  | some n => if n = "" then none else some (jsTake (jsTrim n) 100)

/-- Model of `ucpError(code, message)` (all call sites use the default severity). -/
def ucpError (code msg : String) : Body :=
  .err "canceled"
    [ { type := "error", code := code, severity := some "requires_buyer_input",
        content := msg, path := none } ]

/-- Raw buyer input (`req.body.buyer`). -/
structure BuyerInput where
  email : Option String := none
  full_name : Option String := none
deriving DecidableEq, Repr

/-- Body of a `POST /api/checkout-sessions` request. -/
structure CreateInput where
  line_items : Option (List LineItemInput) := none
  buyer : Option BuyerInput := none
  currency : Option String := none
deriving DecidableEq, Repr

/-- Body of a `PUT /api/checkout-sessions/:id` request. -/
structure UpdateInput where
  line_items : Option (List LineItemInput) := none
  buyer : Option BuyerInput := none
deriving DecidableEq, Repr

/-- Buyer sanitization in `create`: set each field only when the raw field
is truthy and the sanitizer returns a truthy value. -/
def sanitizedBuyerOf (buyer : Option BuyerInput) : Buyer :=
  let e : Option String :=
    match buyer with
    | none => none
    | some b =>
        match b.email with
        | none => none
        | some s => if s = "" then none else sanitizeEmail (some s)
  let n : Option String :=
    match buyer with
    | none => none
    | some b =>
        match b.full_name with
        | none => none
        | some s =>
            if s = "" then none
            else
              match sanitizeName (some s) with
              | none => none
              | some t => if t = "" then none else some t
  { email := e, full_name := n }

/-- Buyer patching in `update`: field-by-field merge; a field is replaced
only when the patch field is truthy and sanitizes to a truthy value. -/
def patchBuyer (b : Buyer) (patch : Option BuyerInput) : Buyer :=
  match patch with
  | none => b
  | some p =>
      let b1 :=
        match p.email with
        | none => b
        | some s =>
            if s = "" then b
            else
              match sanitizeEmail (some s) with
              | none => b
              | some ce => { b with email := some ce }
      match p.full_name with
      | none => b1
      | some s =>
          if s = "" then b1
          else
            match sanitizeName (some s) with
            | none => b1
            | some cn => if cn = "" then b1 else { b1 with full_name := some cn }

/-- Model of `currency || 'USD'`. -/
def currencyOr (currency : Option String) : String :=
  match currency with
  | none => "USD"
  | some c => if c = "" then "USD" else c

/-- Session lifetime: `6 * 60 * 60 * 1000` milliseconds. -/
def sessionTTL : Nat := 6 * 60 * 60 * 1000

/-- The replay check of `handleIdempotency`: a falsy (absent or empty)
key never matches. -/
def idemLookup (key : Option String) (m : List (String × Body)) : Option Body :=
  match key with
  | none => none
  | some k => if k = "" then none else mget m k

/-- Model of `if (req.idempotencyKey) processedRequests.set(key, responseData)`. -/
def idemStore (key : Option String) (b : Body) (s : ServerState) : ServerState :=
  match key with
  | none => s
  | some k =>
      if k = "" then s
      else { s with processedRequests := mset s.processedRequests k b }

/-- The line-item construction of `create`/`update`: map `createLineItem`
over the raw items (threading the global counter) and drop the `null`s. -/
def buildLineItems (counter now : Nat) :
    List LineItemInput → List LineItem × Nat
  | [] => ([], counter)
  | li :: rest =>
      match createLineItem counter now (li.itemId.getD "") (li.quantity.getD 0) with
      | (none, c1) => buildLineItems c1 now rest
      | (some item, c1) =>
          let (items, c2) := buildLineItems c1 now rest
          (item :: items, c2)

/-- The session object built by `create` at time `now` (the `checkout`
literal, followed by the `messages` and `status` assignments); `bid` is
the identity of the freshly allocated `sanitizedBuyer` object. -/
def newCheckout (now : Nat) (input : CreateInput) (items : List LineItem)
    (bid : Nat) : Checkout :=
  let c0 : Checkout :=
    { id := chkId now, line_items := items,
      buyer := sanitizedBuyerOf input.buyer, buyerId := bid,
      currency := currencyOr input.currency,
      totals := calculateTotals items, messages := [],
      expires_at := now + sessionTTL, status := "", order := none }
  let c1 := { c0 with messages := validateCheckout c0 }
  { c1 with status := determineStatus c1 }

/-- Serialization of a body at reply time: a cached snapshot's `buyer`
field aliases the live buyer object, so serving it re-reads the object
from the heap (the fallback, for an unallocated id, never occurs). -/
def renderBody (b : Body) (objs : List (Nat × Buyer)) : Body :=
  match b with
  | .err st ms => .err st ms
  | .snap c => .snap { c with buyer := (mget objs c.buyerId).getD c.buyer }

/-- Handler of `POST /api/checkout-sessions` (create, behind `handleIdempotency`). -/
def createOp (key : Option String) (now : Nat) (input : CreateInput)
    (s : ServerState) : Response × ServerState :=
  match idemLookup key s.processedRequests with
  | some b => ({ code := 200, body := renderBody b s.buyerObjs }, s)
  | none =>
      match
        (match input.line_items with
         | some lis => if lis.length > 0 then validateLineItems lis else .ok ()
         | none => .ok ()) with
      | .error msg => ({ code := 400, body := ucpError "invalid_request" msg }, s)
      | .ok _ =>
          let (items, counter1) :=
            buildLineItems s.lineItemCounter now (input.line_items.getD [])
          let c2 := newCheckout now input items s.buyerCounter
          let s1 : ServerState :=
            { s with checkouts := mset s.checkouts (chkId now) c2,
                     lineItemCounter := counter1,
                     buyerObjs := mset s.buyerObjs s.buyerCounter
                       (sanitizedBuyerOf input.buyer),
                     buyerCounter := s.buyerCounter + 1 }
          let body := Body.snap c2
          ({ code := 201, body := body }, idemStore key body s1)

/-- Handler of `GET /api/checkout-sessions/:id` (no idempotency middleware). -/
def getOp (now : Nat) (id : String) (s : ServerState) :
    Response × ServerState :=
  match mget s.checkouts id with
  | none => ({ code := 404, body := ucpError "not_found" "Checkout not found" }, s)
  | some c =>
      if c.expires_at < now then
        ({ code := 404, body := ucpError "expired" "Checkout session has expired" },
         { s with checkouts := mdel s.checkouts id })
      else ({ code := 200, body := Body.snap c }, s)

/-- The session value stored by a successful `update`: buyer patch applied,
messages and status recomputed. -/
def updatedCheckout (c : Checkout) (buyerPatch : Option BuyerInput) : Checkout :=
  let cb := { c with buyer := patchBuyer c.buyer buyerPatch }
  let cm := { cb with messages := validateCheckout cb }
  { cm with status := determineStatus cm }

/-- Tail of a successful `update`: buyer patch, message/status recompute,
store, idempotency record, `200` snapshot. -/
def finishUpdate (key : Option String) (id : String) (c : Checkout)
    (buyerPatch : Option BuyerInput) (s : ServerState) :
    Response × ServerState :=
  let cs := updatedCheckout c buyerPatch
  let s1 := { s with checkouts := mset s.checkouts id cs,
                     buyerObjs := mset s.buyerObjs c.buyerId cs.buyer }
  let body := Body.snap cs
  ({ code := 200, body := body }, idemStore key body s1)

/-- Handler of `PUT /api/checkout-sessions/:id` (update, behind `handleIdempotency`). -/
def updateOp (key : Option String) (now : Nat) (id : String)
    (input : UpdateInput) (s : ServerState) : Response × ServerState :=
  match idemLookup key s.processedRequests with
  | some b => ({ code := 200, body := renderBody b s.buyerObjs }, s)
  | none =>
      match mget s.checkouts id with
      | none =>
          ({ code := 404, body := ucpError "not_found" "Checkout not found" }, s)
      | some c =>
          if c.expires_at < now then
            ({ code := 404,
               body := ucpError "expired" "Checkout session has expired" },
             { s with checkouts := mdel s.checkouts id })
          else
            match input.line_items with
            | some lis =>
                match validateLineItems lis with
                | .error msg =>
                    ({ code := 400, body := ucpError "invalid_request" msg }, s)
                | .ok _ =>
                    let (items, counter1) := buildLineItems s.lineItemCounter now lis
                    finishUpdate key id
                      { c with line_items := items,
                               totals := calculateTotals items }
                      input.buyer { s with lineItemCounter := counter1 }
            | none => finishUpdate key id c input.buyer s

/-- The session value stored by a successful `complete`: order assigned,
status `completed`, messages replaced by the confirmation. -/
def completedCheckout (now : Nat) (c : Checkout) : Checkout :=
  let orderId := "ORD_" ++ natStr now
  { c with
    order := some { id := orderId,
                    permalink_url :=
                      "http://localhost:3000/orders/" ++ orderId },
    status := "completed",
    messages := [orderConfirmedMsg] }

/-- Handler of `POST /api/checkout-sessions/:id/complete` (behind `handleIdempotency`). -/
def completeOp (key : Option String) (now : Nat) (id : String)
    (s : ServerState) : Response × ServerState :=
  match idemLookup key s.processedRequests with
  | some b => ({ code := 200, body := renderBody b s.buyerObjs }, s)
  | none =>
      match mget s.checkouts id with
      | none =>
          ({ code := 404, body := ucpError "not_found" "Checkout not found" }, s)
      | some c =>
          if c.expires_at < now then
            ({ code := 404,
               body := ucpError "expired" "Checkout session has expired" },
             { s with checkouts := mdel s.checkouts id })
          else if c.status ≠ "ready_for_complete" then
            ({ code := 400, body := Body.snap { c with messages := [notReadyMsg] } },
             s)
          else
            let cDone := completedCheckout now c
            let s1 := { s with checkouts := mset s.checkouts id cDone }
            let body := Body.snap cDone
            ({ code := 200, body := body }, idemStore key body s1)

/-- One API request (the four lifecycle calls). -/
inductive Request where
  | create (key : Option String) (input : CreateInput)
  | getSession (id : String)
  | update (key : Option String) (id : String) (input : UpdateInput)
  | complete (key : Option String) (id : String)
deriving DecidableEq, Repr

/-- Dispatch one request at time `now`. -/
def step (now : Nat) (r : Request) (s : ServerState) :
    Response × ServerState :=
  match r with
  | .create key input => createOp key now input s
  | .getSession id => getOp now id s
  | .update key id input => updateOp key now id input s
  | .complete key id => completeOp key now id s

/-- The idempotency key carried by a request (`idempotency-key` header). -/
def requestKey : Request → Option String
  | .create key _ => key
  | .getSession _ => none
  | .update key _ _ => key
  | .complete key _ => key

/-- The periodic expiry sweep (`setInterval`, every minute): delete every
session with `expires_at` strictly in the past. -/
def sweepExpired (now : Nat) (s : ServerState) : ServerState :=
  { s with checkouts := s.checkouts.filter (fun p => !decide (p.2.expires_at < now)) }

/-- The hourly wholesale idempotency-cache clear (`processedRequests.clear()`). -/
def clearProcessed (s : ServerState) : ServerState :=
  { s with processedRequests := [] }

/-- One event of a server history: an API request or a background timer. -/
inductive Event where
  | api (now : Nat) (r : Request)
  | sweep (now : Nat)
  | clearCache
deriving DecidableEq, Repr

/-- Apply one event to the state. -/
def applyEvent (s : ServerState) : Event → ServerState
  | .api now r => (step now r s).2
  | .sweep now => sweepExpired now s
  | .clearCache => clearProcessed s

/-- Run a list of events in order. -/
def runTrace (s : ServerState) : List Event → ServerState
  | [] => s
  | e :: es => runTrace (applyEvent s e) es

/-- States reachable from process start by any event history. -/
inductive Reachable : ServerState → Prop where
  | init : Reachable initState
  | next {s : ServerState} (e : Event) : Reachable s → Reachable (applyEvent s e)

/-! ### Basic lemmas about the map operations -/

theorem mget_mdel {α : Type} (m : List (String × α)) (k k' : String) :
    mget (mdel m k) k' = if k' = k then none else mget m k' := by
  induction m with
  | nil => simp [mdel, mget]
  | cons hd tl ih =>
      obtain ⟨k0, v0⟩ := hd
      by_cases h0 : k0 = k
      · subst h0
        have hh : mdel ((k0, v0) :: tl) k0 = mdel tl k0 := by simp [mdel]
        rw [hh, ih]
        by_cases h1 : k' = k0
        · simp [h1]
        · simp [h1, mget]
      · have hh : mdel ((k0, v0) :: tl) k = (k0, v0) :: mdel tl k := by
          simp [mdel, h0]
        rw [hh]
        by_cases h1 : k' = k0
        · subst h1
          simp [mget, h0]
        · simp [mget, h1, ih]

theorem mget_mset_self {κ α : Type} [DecidableEq κ] (m : List (κ × α)) (k : κ)
    (v : α) : mget (mset m k v) k = some v := by
  simp [mset, mget]

theorem mget_mset_ne {α : Type} (m : List (String × α)) (k k' : String) (v : α)
    (h : k' ≠ k) : mget (mset m k v) k' = mget m k' := by
  simp [mset, mget, h, mget_mdel]

theorem mget_mem {α : Type} {m : List (String × α)} {k : String} {v : α}
    (h : mget m k = some v) : (k, v) ∈ m := by
  induction m with
  | nil => simp [mget] at h
  | cons hd tl ih =>
      obtain ⟨k0, v0⟩ := hd
      by_cases h0 : k = k0
      · subst h0
        have hv : v0 = v := by simpa [mget] using h
        subst hv
        exact List.mem_cons_self _ _
      · simp only [mget, if_neg h0] at h
        exact List.mem_cons_of_mem _ (ih h)

theorem mem_mdel {α : Type} {m : List (String × α)} {k : String}
    {p : String × α} (h : p ∈ mdel m k) : p ∈ m := by
  induction m with
  | nil => simp [mdel] at h
  | cons hd tl ih =>
      obtain ⟨k0, v0⟩ := hd
      by_cases h0 : k0 = k
      · simp only [mdel, if_pos h0] at h
        exact List.mem_cons_of_mem _ (ih h)
      · simp only [mdel, if_neg h0] at h
        rcases List.mem_cons.mp h with h1 | h1
        · exact h1 ▸ List.mem_cons_self _ _
        · exact List.mem_cons_of_mem _ (ih h1)

theorem mem_mset {α : Type} {m : List (String × α)} {k : String} {v : α}
    {p : String × α} (h : p ∈ mset m k v) : p = (k, v) ∨ p ∈ m := by
  rcases List.mem_cons.mp h with h1 | h1
  · exact Or.inl h1
  · exact Or.inr (mem_mdel h1)

theorem mget_filter_none {α : Type} {m : List (String × α)} {k : String}
    (f : String × α → Bool) (h : mget m k = none) :
    mget (m.filter f) k = none := by
  induction m with
  | nil => simp [mget]
  | cons hd tl ih =>
      obtain ⟨k0, v0⟩ := hd
      by_cases h0 : k = k0
      · simp [mget, h0] at h
      · simp only [mget, if_neg h0] at h
        by_cases hf : f (k0, v0)
        · simp [List.filter_cons, hf, mget, h0, ih h]
        · simp [List.filter_cons, hf, ih h]

/-! ### Injectivity of the decimal renderer -/

theorem digitChar_inj_lt : ∀ d < 10, ∀ e < 10,
    Nat.digitChar d = Nat.digitChar e → d = e := by decide

theorem natCharsAux_ne_nil (fuel n : Nat) (h : 0 < fuel) :
    natCharsAux fuel n ≠ [] := by
  cases fuel with
  | zero => omega
  | succ f =>
      simp only [natCharsAux]
      split
      · simp
      · simp

theorem natCharsAux_inj :
    ∀ fa : Nat, ∀ a b fb : Nat, a < fa → b < fb →
      natCharsAux fa a = natCharsAux fb b → a = b := by
  intro fa
  induction fa with
  | zero => intro a b fb ha; omega
  | succ f ih =>
      intro a b fb ha hb heq
      cases fb with
      | zero => omega
      | succ g =>
          simp only [natCharsAux] at heq
          by_cases h10a : a < 10
          · by_cases h10b : b < 10
            · rw [if_pos h10a, if_pos h10b] at heq
              simp only [List.cons.injEq, and_true] at heq
              exact digitChar_inj_lt a h10a b h10b heq
            · rw [if_pos h10a, if_neg h10b] at heq
              have hlen := congrArg List.length heq
              have hpos : 0 < (natCharsAux g (b / 10)).length :=
                List.length_pos.mpr (natCharsAux_ne_nil g (b / 10) (by omega))
              simp only [List.length_cons, List.length_nil,
                List.length_append] at hlen
              omega
          · by_cases h10b : b < 10
            · rw [if_neg h10a, if_pos h10b] at heq
              have hlen := congrArg List.length heq
              have hpos : 0 < (natCharsAux f (a / 10)).length :=
                List.length_pos.mpr (natCharsAux_ne_nil f (a / 10) (by omega))
              simp only [List.length_cons, List.length_nil,
                List.length_append] at hlen
              omega
            · rw [if_neg h10a, if_neg h10b] at heq
              have hparts := List.append_inj' heq (by simp)
              have hq : a / 10 = b / 10 := by
                refine ih (a / 10) (b / 10) g ?_ ?_ hparts.1
                · have : a / 10 < a := Nat.div_lt_self (by omega) (by omega)
                  omega
                · have : b / 10 < b := Nat.div_lt_self (by omega) (by omega)
                  omega
              have hr : a % 10 = b % 10 := by
                have h1 : [Nat.digitChar (a % 10)] = [Nat.digitChar (b % 10)] :=
                  hparts.2
                simp only [List.cons.injEq, and_true] at h1
                exact digitChar_inj_lt (a % 10) (Nat.mod_lt a (by omega)) (b % 10)
                  (Nat.mod_lt b (by omega)) h1
              omega

theorem natStr_inj {a b : Nat} (h : natStr a = natStr b) : a = b := by
  have h2 : natCharsAux (a + 1) a = natCharsAux (b + 1) b := by
    have := congrArg String.data h
    simpa [natStr] using this
  exact natCharsAux_inj (a + 1) a b (b + 1) (Nat.lt_succ_self a)
    (Nat.lt_succ_self b) h2

theorem string_append_left_cancel {p x y : String} (h : p ++ x = p ++ y) :
    x = y := by
  obtain ⟨dp⟩ := p
  obtain ⟨dx⟩ := x
  obtain ⟨dy⟩ := y
  have h2 : dp ++ dx = dp ++ dy := congrArg String.data h
  exact congrArg String.mk (List.append_cancel_left h2)

theorem chkId_inj {a b : Nat} (h : chkId a = chkId b) : a = b :=
  natStr_inj (string_append_left_cancel h)

/-! ### The subtotal fold of `calculateTotals` -/

theorem foldl_price_sum (lis : List LineItem) (a : ℚ) :
    lis.foldl (fun sum it => sum + (it.item.price : ℚ) * it.quantity) a
      = a + (lis.map (fun it => (it.item.price : ℚ) * it.quantity)).sum := by
  induction lis generalizing a with
  | nil => simp
  | cons hd tl ih => simp [ih]; ring

theorem ratScientific_008 : (0.08 : ℚ) = 8 / 100 := by decide

/-! ### Validation and line-item construction lemmas -/

theorem validItem_bounds {it : LineItemInput} (h : validItem it = .ok ()) :
    1 ≤ it.quantity.getD 0 ∧ it.quantity.getD 0 ≤ 100 := by
  unfold validItem at h
  split_ifs at h with h1 h2
  constructor
  · exact not_lt.mp (fun hlt => h2 (Or.inl hlt))
  · exact not_lt.mp (fun hlt => h2 (Or.inr hlt))

theorem validateItems_mem {lis : List LineItemInput}
    (h : validateItems lis = .ok ()) : ∀ it ∈ lis, validItem it = .ok () := by
  induction lis with
  | nil => simp
  | cons hd tl ih =>
      intro it hit
      unfold validateItems at h
      cases hv : validItem hd with
      | error e => rw [hv] at h; exact absurd h (by simp)
      | ok u =>
          rw [hv] at h
          rcases List.mem_cons.mp hit with h1 | h1
          · subst h1
            cases u
            exact hv
          · exact ih h it h1

theorem validateLineItems_ok {lis : List LineItemInput}
    (h : validateLineItems lis = .ok ()) :
    lis ≠ [] ∧ ∀ it ∈ lis, validItem it = .ok () := by
  by_cases h0 : lis.length = 0
  · rw [validateLineItems, if_pos h0] at h
    simp at h
  · rw [validateLineItems, if_neg h0] at h
    exact ⟨fun hnil => h0 (by simp [hnil]), validateItems_mem h⟩

theorem createLineItem_some {counter now : Nat} {pid : String} {q : ℚ}
    {item : LineItem}
    (h : (createLineItem counter now pid q).1 = some item) :
    item.quantity = q := by
  unfold createLineItem at h
  cases hf : PRODUCTS.find? (fun p => p.id == pid) with
  | none => rw [hf] at h; simp at h
  | some p =>
      rw [hf] at h
      simp only [Option.some.injEq] at h
      rw [← h]

theorem buildLineItems_bounds {lis : List LineItemInput}
    (h : ∀ it ∈ lis, validItem it = .ok ()) (counter now : Nat) :
    ∀ li ∈ (buildLineItems counter now lis).1,
      1 ≤ li.quantity ∧ li.quantity ≤ 100 := by
  induction lis generalizing counter with
  | nil => simp [buildLineItems]
  | cons hd tl ih =>
      intro li hli
      have hhd := h hd (List.mem_cons_self _ _)
      have htl : ∀ it ∈ tl, validItem it = .ok () :=
        fun it hit => h it (List.mem_cons_of_mem _ hit)
      unfold buildLineItems at hli
      cases hcl : createLineItem counter now (hd.itemId.getD "") (hd.quantity.getD 0) with
      | mk item? c1 =>
          rw [hcl] at hli
          cases item? with
          | none => exact ih htl c1 li hli
          | some item =>
              simp only at hli
              rcases hbuild : buildLineItems c1 now tl with ⟨items, c2⟩
              rw [hbuild] at hli
              simp only [List.mem_cons] at hli
              rcases hli with h1 | h1
              · subst h1
                have hq : li.quantity = hd.quantity.getD 0 :=
                  createLineItem_some (by rw [hcl])
                rw [hq]
                exact validItem_bounds hhd
              · have := ih htl c1 li
                rw [hbuild] at this
                exact this h1

/-- Product-existence test on a raw line item (`PRODUCTS.find` hit). -/
def knownProduct (li : LineItemInput) : Bool :=
  (PRODUCTS.find? (fun p => p.id == li.itemId.getD "")).isSome

theorem buildLineItems_filter (counter now : Nat) (lis : List LineItemInput) :
    buildLineItems counter now lis
      = buildLineItems counter now (lis.filter knownProduct) := by
  induction lis generalizing counter with
  | nil => simp
  | cons hd tl ih =>
      cases hf : PRODUCTS.find? (fun p => p.id == hd.itemId.getD "") with
      | none =>
          have hk : knownProduct hd = false := by simp [knownProduct, hf]
          simp only [buildLineItems, createLineItem, hf, List.filter_cons, hk,
            Bool.false_eq_true, if_false]
          exact ih counter
      | some p =>
          have hk : knownProduct hd = true := by simp [knownProduct, hf]
          simp only [buildLineItems, createLineItem, hf, List.filter_cons, hk,
            if_true]
          rw [ih (counter + 1)]

/-! ### The store invariant carried by every reachable state -/

/-- What is true of every entry of the `checkouts` map in every reachable
state: the key is `chk_<t>` for the creation time `t`, the expiry is
`t + 6h`, and every stored quantity is in `[1, 100]`. -/
def GoodEntry (id : String) (c : Checkout) : Prop :=
  (∃ t, id = chkId t ∧ c.expires_at = t + sessionTTL) ∧
  ∀ li ∈ c.line_items, 1 ≤ li.quantity ∧ li.quantity ≤ 100

/-- The `checkouts`-map invariant. -/
def StoreInv (s : ServerState) : Prop := ∀ p ∈ s.checkouts, GoodEntry p.1 p.2

theorem idemStore_checkouts (key : Option String) (b : Body) (s : ServerState) :
    (idemStore key b s).checkouts = s.checkouts := by
  unfold idemStore
  cases key with
  | none => rfl
  | some k =>
      by_cases hk : k = ""
      · simp [hk]
      · simp [hk]

theorem idemStore_buyerObjs (key : Option String) (b : Body) (s : ServerState) :
    (idemStore key b s).buyerObjs = s.buyerObjs := by
  unfold idemStore
  cases key with
  | none => rfl
  | some k =>
      by_cases hk : k = ""
      · simp [hk]
      · simp [hk]

theorem newCheckout_buyerId (now : Nat) (input : CreateInput)
    (items : List LineItem) (bid : Nat) :
    (newCheckout now input items bid).buyerId = bid := rfl

theorem create_items_bounds {linput : Option (List LineItemInput)}
    (hv : (match linput with
           | some lis =>
               if lis.length > 0 then validateLineItems lis else Except.ok ()
           | none => Except.ok ()) = Except.ok ()) (counter now : Nat) :
    ∀ li ∈ (buildLineItems counter now (linput.getD [])).1,
      1 ≤ li.quantity ∧ li.quantity ≤ 100 := by
  cases linput with
  | none => simp [buildLineItems]
  | some lis =>
      have hv2 : (if lis.length > 0 then validateLineItems lis
          else Except.ok ()) = Except.ok () := hv
      by_cases hlen : lis.length > 0
      · rw [if_pos hlen] at hv2
        exact buildLineItems_bounds (validateLineItems_ok hv2).2 counter now
      · have hnil : lis = [] := by
          cases lis with
          | nil => rfl
          | cons a as => simp at hlen
        subst hnil
        simp [buildLineItems]

theorem storeInv_finishUpdate {key : Option String} {id : String} {c : Checkout}
    {patch : Option BuyerInput} {s : ServerState}
    (hInv : StoreInv s) (hgood : GoodEntry id c) :
    StoreInv (finishUpdate key id c patch s).2 := by
  intro p hp
  simp only [finishUpdate, idemStore_checkouts] at hp
  rcases mem_mset hp with h1 | h1
  · subst h1
    obtain ⟨⟨t, hid, hexp⟩, hq⟩ := hgood
    exact ⟨⟨t, hid, hexp⟩, hq⟩
  · exact hInv p h1

theorem storeInv_createOp {key : Option String} {now : Nat}
    {input : CreateInput} {s : ServerState} (hInv : StoreInv s) :
    StoreInv (createOp key now input s).2 := by
  unfold createOp
  split
  · exact hInv
  · split
    · exact hInv
    · rename_i hidem u hval
      intro p hp
      simp only [idemStore_checkouts] at hp
      rcases mem_mset hp with h1 | h1
      · subst h1
        exact ⟨⟨now, rfl, rfl⟩, create_items_bounds hval s.lineItemCounter now⟩
      · exact hInv p h1

theorem storeInv_getOp {now : Nat} {id : String} {s : ServerState}
    (hInv : StoreInv s) : StoreInv (getOp now id s).2 := by
  unfold getOp
  split
  · exact hInv
  · split
    · intro p hp
      exact hInv p (mem_mdel hp)
    · exact hInv

theorem storeInv_updateOp {key : Option String} {now : Nat} {id : String}
    {input : UpdateInput} {s : ServerState} (hInv : StoreInv s) :
    StoreInv (updateOp key now id input s).2 := by
  unfold updateOp
  split
  · exact hInv
  · split
    · exact hInv
    · rename_i hidem c hc
      split
      · intro p hp
        exact hInv p (mem_mdel hp)
      · rename_i hexp
        have hgoodc : GoodEntry id c := hInv (id, c) (mget_mem hc)
        split
        · rename_i lis hlis
          split
          · exact hInv
          · rename_i u hval
            split
            · rename_i items counter1 hbuild
              refine storeInv_finishUpdate (fun p hp => hInv p hp) ?_
              obtain ⟨⟨t, hid, hexpat⟩, _⟩ := hgoodc
              refine ⟨⟨t, hid, hexpat⟩, ?_⟩
              intro li hli
              have hb := buildLineItems_bounds (validateLineItems_ok hval).2
                s.lineItemCounter now li
              rw [hbuild] at hb
              exact hb hli
        · exact storeInv_finishUpdate hInv hgoodc

theorem storeInv_completeOp {key : Option String} {now : Nat} {id : String}
    {s : ServerState} (hInv : StoreInv s) :
    StoreInv (completeOp key now id s).2 := by
  unfold completeOp
  split
  · exact hInv
  · split
    · exact hInv
    · rename_i hidem c hc
      split
      · intro p hp
        exact hInv p (mem_mdel hp)
      · split
        · exact hInv
        · intro p hp
          simp only [idemStore_checkouts] at hp
          rcases mem_mset hp with h1 | h1
          · subst h1
            obtain ⟨⟨t, hid, hexpat⟩, hq⟩ := hInv (id, c) (mget_mem hc)
            exact ⟨⟨t, hid, hexpat⟩, hq⟩
          · exact hInv p h1

theorem storeInv_sweep {now : Nat} {s : ServerState} (hInv : StoreInv s) :
    StoreInv (sweepExpired now s) := by
  intro p hp
  exact hInv p (List.mem_filter.mp hp).1

theorem reachable_storeInv {s : ServerState} (h : Reachable s) : StoreInv s := by
  induction h with
  | init => intro p hp; simp [initState] at hp
  | next e hs ih =>
      cases e with
      | api now r =>
          cases r with
          | create key input => exact storeInv_createOp ih
          | getSession id => exact storeInv_getOp ih
          | update key id input => exact storeInv_updateOp ih
          | complete key id => exact storeInv_completeOp ih
      | sweep now => exact storeInv_sweep ih
      | clearCache => exact ih

/-! ### Shape of the `checkouts` map after each operation -/

theorem finishUpdate_checkouts (key : Option String) (id : String)
    (c : Checkout) (patch : Option BuyerInput) (s : ServerState) :
    (finishUpdate key id c patch s).2.checkouts
      = mset s.checkouts id (updatedCheckout c patch) := by
  simp [finishUpdate, idemStore_checkouts]

theorem createOp_checkouts (key : Option String) (now : Nat)
    (input : CreateInput) (s : ServerState) :
    (createOp key now input s).2.checkouts = s.checkouts ∨
    ∃ c, (createOp key now input s).2.checkouts = mset s.checkouts (chkId now) c := by
  unfold createOp
  split
  · exact Or.inl rfl
  · split
    · exact Or.inl rfl
    · split
      rename_i items counter1 hbuild
      refine Or.inr ⟨newCheckout now input items s.buyerCounter, ?_⟩
      simp [idemStore_checkouts]

theorem getOp_checkouts (now : Nat) (id : String) (s : ServerState) :
    (getOp now id s).2.checkouts = s.checkouts ∨
    (getOp now id s).2.checkouts = mdel s.checkouts id := by
  unfold getOp
  split
  · exact Or.inl rfl
  · split
    · exact Or.inr rfl
    · exact Or.inl rfl

theorem updateOp_checkouts (key : Option String) (now : Nat) (id : String)
    (input : UpdateInput) (s : ServerState) :
    (updateOp key now id input s).2.checkouts = s.checkouts ∨
    (updateOp key now id input s).2.checkouts = mdel s.checkouts id ∨
    ((∃ c, mget s.checkouts id = some c) ∧
      ∃ c2, (updateOp key now id input s).2.checkouts = mset s.checkouts id c2) := by
  unfold updateOp
  split
  · exact Or.inl rfl
  · split
    · exact Or.inl rfl
    · rename_i hidem c hc
      split
      · exact Or.inr (Or.inl rfl)
      · split
        · split
          · exact Or.inl rfl
          · split
            rename_i items counter1 hbuild
            refine Or.inr (Or.inr ⟨⟨c, hc⟩,
              updatedCheckout
                { c with line_items := items,
                         totals := calculateTotals items } input.buyer, ?_⟩)
            exact finishUpdate_checkouts _ _ _ _ _
        · refine Or.inr (Or.inr ⟨⟨c, hc⟩, updatedCheckout c input.buyer, ?_⟩)
          exact finishUpdate_checkouts _ _ _ _ _

theorem completeOp_checkouts (key : Option String) (now : Nat) (id : String)
    (s : ServerState) :
    (completeOp key now id s).2.checkouts = s.checkouts ∨
    (completeOp key now id s).2.checkouts = mdel s.checkouts id ∨
    ((∃ c, mget s.checkouts id = some c) ∧
      ∃ c2, (completeOp key now id s).2.checkouts = mset s.checkouts id c2) := by
  unfold completeOp
  split
  · exact Or.inl rfl
  · split
    · exact Or.inl rfl
    · rename_i hidem c hc
      split
      · exact Or.inr (Or.inl rfl)
      · split
        · exact Or.inl rfl
        · refine Or.inr (Or.inr ⟨⟨c, hc⟩, completedCheckout now c, ?_⟩)
          simp [idemStore_checkouts]

/-! ### An absent session id stays absent -/

theorem absent_step {now : Nat} {r : Request} {s : ServerState} {id : String}
    (h : mget s.checkouts id = none)
    (hcr : ∀ key input, r = Request.create key input → chkId now ≠ id) :
    mget (step now r s).2.checkouts id = none := by
  cases r with
  | create key input =>
      show mget (createOp key now input s).2.checkouts id = none
      rcases createOp_checkouts key now input s with h1 | ⟨c, h1⟩
      · rw [h1]; exact h
      · rw [h1, mget_mset_ne _ _ _ _ (Ne.symm (hcr key input rfl))]
        exact h
  | getSession gid =>
      show mget (getOp now gid s).2.checkouts id = none
      rcases getOp_checkouts now gid s with h1 | h1
      · rw [h1]; exact h
      · rw [h1, mget_mdel]
        split <;> [rfl; exact h]
  | update key uid input =>
      show mget (updateOp key now uid input s).2.checkouts id = none
      rcases updateOp_checkouts key now uid input s with h1 | h1 | ⟨⟨c, hc⟩, c2, h1⟩
      · rw [h1]; exact h
      · rw [h1, mget_mdel]
        split <;> [rfl; exact h]
      · have hne : id ≠ uid := by
          intro hh
          rw [hh, hc] at h
          exact Option.noConfusion h
        rw [h1, mget_mset_ne _ _ _ _ hne]
        exact h
  | complete key cid =>
      show mget (completeOp key now cid s).2.checkouts id = none
      rcases completeOp_checkouts key now cid s with h1 | h1 | ⟨⟨c, hc⟩, c2, h1⟩
      · rw [h1]; exact h
      · rw [h1, mget_mdel]
        split <;> [rfl; exact h]
      · have hne : id ≠ cid := by
          intro hh
          rw [hh, hc] at h
          exact Option.noConfusion h
        rw [h1, mget_mset_ne _ _ _ _ hne]
        exact h

theorem absent_event {e : Event} {s : ServerState} {id : String}
    (h : mget s.checkouts id = none)
    (hcr : ∀ now key input, e = Event.api now (Request.create key input) →
      chkId now ≠ id) :
    mget (applyEvent s e).checkouts id = none := by
  cases e with
  | api now r =>
      exact absent_step h (fun key input hr => hcr now key input (by rw [hr]))
  | sweep now =>
      exact mget_filter_none _ h
  | clearCache => exact h

theorem absent_trace {tr : List Event} {s : ServerState} {id : String}
    (h : mget s.checkouts id = none)
    (hcr : ∀ e ∈ tr, ∀ now key input,
      e = Event.api now (Request.create key input) → chkId now ≠ id) :
    mget (runTrace s tr).checkouts id = none := by
  induction tr generalizing s with
  | nil => exact h
  | cons e es ih =>
      exact ih (absent_event h (hcr e (List.mem_cons_self _ _)))
        (fun e2 he2 => hcr e2 (List.mem_cons_of_mem _ he2))

/-! ### The idempotency map only grows (except for the hourly clear) -/

theorem idemStore_proc {key : Option String} {b2 : Body} {s : ServerState}
    {k : String} {b : Body} (hk : mget s.processedRequests k = some b)
    (hfresh : idemLookup key s.processedRequests = none) :
    mget (idemStore key b2 s).processedRequests k = some b := by
  cases key with
  | none => exact hk
  | some k2 =>
      by_cases h2 : k2 = ""
      · simp only [idemStore, if_pos h2]
        exact hk
      · have hne : k ≠ k2 := by
          intro hh
          subst hh
          simp [idemLookup, h2, hk] at hfresh
        simp only [idemStore, if_neg h2]
        rw [mget_mset_ne _ _ _ _ hne]
        exact hk

theorem createOp_proc {key : Option String} {now : Nat} {input : CreateInput}
    {s : ServerState} {k : String} {b : Body}
    (hk : mget s.processedRequests k = some b) :
    mget (createOp key now input s).2.processedRequests k = some b := by
  unfold createOp
  split
  · exact hk
  · rename_i hidem
    split
    · exact hk
    · exact idemStore_proc hk hidem

theorem getOp_proc (now : Nat) (id : String) (s : ServerState) :
    (getOp now id s).2.processedRequests = s.processedRequests := by
  unfold getOp
  split
  · rfl
  · split <;> rfl

theorem updateOp_proc {key : Option String} {now : Nat} {id : String}
    {input : UpdateInput} {s : ServerState} {k : String} {b : Body}
    (hk : mget s.processedRequests k = some b) :
    mget (updateOp key now id input s).2.processedRequests k = some b := by
  unfold updateOp
  split
  · exact hk
  · rename_i hidem
    split
    · exact hk
    · split
      · exact hk
      · split
        · split
          · exact hk
          · split
            simp only [finishUpdate]
            exact idemStore_proc hk hidem
        · simp only [finishUpdate]
          exact idemStore_proc hk hidem

theorem completeOp_proc {key : Option String} {now : Nat} {id : String}
    {s : ServerState} {k : String} {b : Body}
    (hk : mget s.processedRequests k = some b) :
    mget (completeOp key now id s).2.processedRequests k = some b := by
  unfold completeOp
  split
  · exact hk
  · rename_i hidem
    split
    · exact hk
    · split
      · exact hk
      · split
        · exact hk
        · exact idemStore_proc hk hidem

theorem proc_step {now : Nat} {r : Request} {s : ServerState} {k : String}
    {b : Body} (hk : mget s.processedRequests k = some b) :
    mget (step now r s).2.processedRequests k = some b := by
  cases r with
  | create key input => exact createOp_proc hk
  | getSession id =>
      show mget (getOp now id s).2.processedRequests k = some b
      rw [getOp_proc]
      exact hk
  | update key id input => exact updateOp_proc hk
  | complete key id => exact completeOp_proc hk

/-! ### Status state machine helpers -/

theorem determineStatus_cases (c : Checkout) :
    determineStatus c = "ready_for_complete" ∨
    determineStatus c = "incomplete" := by
  unfold determineStatus
  split
  · exact Or.inr rfl
  · split
    · exact Or.inr rfl
    · exact Or.inl rfl

/-- The specified status rule: `ready_for_complete` iff truthy email, truthy
full name and a non-empty cart, and `incomplete` in every other case. -/
def StatusSpec (c : Checkout) : Prop :=
  (c.status = "ready_for_complete" ↔
    (truthyStr c.buyer.email = true ∧ truthyStr c.buyer.full_name = true ∧
      c.line_items ≠ [])) ∧
  (c.status = "ready_for_complete" ∨ c.status = "incomplete")

theorem statusSpec_set (c : Checkout) :
    StatusSpec { c with status := determineStatus c } := by
  have hs1 : ("incomplete" : String) ≠ "ready_for_complete" := by decide
  constructor
  · show determineStatus c = "ready_for_complete" ↔ _
    unfold determineStatus
    by_cases he : truthyStr c.buyer.email = true <;>
      by_cases hn : truthyStr c.buyer.full_name = true <;>
        by_cases hl : c.line_items = [] <;>
          simp [he, hn, hl, hs1, List.length_eq_zero]
  · exact determineStatus_cases c

theorem statusSpec_new (now : Nat) (input : CreateInput)
    (items : List LineItem) (bid : Nat) :
    StatusSpec (newCheckout now input items bid) := by
  unfold newCheckout
  exact statusSpec_set _

theorem statusSpec_updated (c : Checkout) (patch : Option BuyerInput) :
    StatusSpec (updatedCheckout c patch) := by
  unfold updatedCheckout
  exact statusSpec_set _

/-! ### The claims -/

/-- C7: `calculateTotals` always returns exactly three entries, in the order
subtotal, tax, total, with `subtotal = Σ unitPrice·quantity`,
`tax = round-half-up (subtotal · 8/100)` computed exactly,
and `total = subtotal + tax`; in particular a single line item of unit
price 299 and quantity 12 gives 3588 / 287 / 3875. -/
theorem totals_three_entries (lis : List LineItem) :
    calculateTotals lis =
      [ { type := "subtotal",
          amount := (lis.map (fun it => (it.item.price : ℚ) * it.quantity)).sum,
          display_text := some "Subtotal" },
        { type := "tax",
          amount := ((round
            ((lis.map (fun it => (it.item.price : ℚ) * it.quantity)).sum
              * (8 / 100)) : ℤ) : ℚ),
          display_text := some "Tax (8%)" },
        { type := "total",
          amount := (lis.map (fun it => (it.item.price : ℚ) * it.quantity)).sum
            + ((round
              ((lis.map (fun it => (it.item.price : ℚ) * it.quantity)).sum
                * (8 / 100)) : ℤ) : ℚ),
          display_text := some "Total" } ] ∧
    (createLineItem 0 0 "1" 12).1.map (fun li => calculateTotals [li])
      = some
          [ { type := "subtotal", amount := 3588, display_text := some "Subtotal" },
            { type := "tax", amount := 287, display_text := some "Tax (8%)" },
            { type := "total", amount := 3875, display_text := some "Total" } ] := by
  constructor
  · simp only [calculateTotals, foldl_price_sum, ratScientific_008, zero_add]
  · decide

/-- C5: an `update` whose supplied `line_items` fail structural validation
returns the `invalid_request` diagnostic and leaves the whole server state
— in particular the stored session — exactly as it was. -/
theorem invalid_line_items_frame (s : ServerState) (id : String) (c : Checkout)
    (now : Nat) (key : Option String) (input : UpdateInput)
    (lis : List LineItemInput) (msg : String)
    (hkey : idemLookup key s.processedRequests = none)
    (hc : mget s.checkouts id = some c)
    (hexp : ¬ c.expires_at < now)
    (hin : input.line_items = some lis)
    (hval : validateLineItems lis = .error msg) :
    updateOp key now id input s
      = ({ code := 400, body := ucpError "invalid_request" msg }, s) := by
  unfold updateOp
  simp only [hkey, hc, if_neg hexp, hin, hval]

/-- C6: `complete` on an existing, non-expired session whose status is not
`ready_for_complete` returns the current snapshot with a `not_ready`
message (status code 400) and leaves the server state — stored line items,
buyer, totals, status, messages, order — completely unchanged. -/
theorem complete_not_ready_frame (s : ServerState) (id : String) (c : Checkout)
    (now : Nat) (key : Option String)
    (hkey : idemLookup key s.processedRequests = none)
    (hc : mget s.checkouts id = some c)
    (hexp : ¬ c.expires_at < now)
    (hst : c.status ≠ "ready_for_complete") :
    completeOp key now id s
      = ({ code := 400,
           body := Body.snap { c with messages := [notReadyMsg] } }, s) := by
  unfold completeOp
  simp only [hkey, hc, if_neg hexp, if_pos hst]

/-- C2 counterexample setup: `create` with key `K` records a body whose
buyer aliases the session's buyer object (email only). -/
def aliasInput : CreateInput :=
  { line_items := none,
    buyer := some { email := some "a@b.co", full_name := none },
    currency := none }

/-- State after the keyed `create` at time 0. -/
def aliasS1 : ServerState := (createOp (some "K") 0 aliasInput initState).2

/-- State after a key-less `update` at time 1 that patches `full_name`
into the same (aliased) buyer object. -/
def aliasS2 : ServerState :=
  (updateOp none 1 "chk_0"
    { line_items := none,
      buyer := some { email := none, full_name := some "Al" } } aliasS1).2

/-- C2 counterexample: the original claim — a replay returns the exact,
byte-identical body produced for the first call even when other
operations have run in between — is false: the cached body's buyer
aliases the live session's buyer object, the intervening `update`
mutates it in place (`server.js:612,616`), and the replay then serializes
the mutated object, so the replayed body differs from the first response
(it now carries `full_name`), although the state is untouched and
nothing re-executes. -/
theorem idem_replay_exact_counterexample :
    (createOp (some "K") 2 aliasInput aliasS2).1.body
      ≠ (createOp (some "K") 0 aliasInput initState).1.body ∧
    (createOp (some "K") 2 aliasInput aliasS2).2 = aliasS2 := by
  constructor
  · decide
  · decide

/-- C2 amended: a mutating call carrying an already-recorded idempotency
key is answered with the recorded response object — rendered against the
live buyer heap, exactly as JS serializes the aliased buyer at reply
time — with the state unchanged (no re-execution, no re-validation, for
arbitrary input); the recorded entry itself is never overwritten by any
operation other than the hourly cache clear; and the replayed body is
byte-identical to the first response exactly when the aliased buyer
object still has its value from the time of the first call. -/
theorem idem_replay_renders_cached (s : ServerState) (k : String) (b : Body)
    (hk : mget s.processedRequests k = some b) (hne : k ≠ "") :
    (∀ now r, requestKey r = some k →
      step now r s = ({ code := 200, body := renderBody b s.buyerObjs }, s)) ∧
    (∀ e, e ≠ Event.clearCache →
      mget (applyEvent s e).processedRequests k = some b) ∧
    (∀ c, b = Body.snap c → mget s.buyerObjs c.buyerId = some c.buyer →
      renderBody b s.buyerObjs = b) := by
  have hlook : idemLookup (some k) s.processedRequests = some b := by
    simp [idemLookup, hne, hk]
  constructor
  · intro now r hr
    cases r with
    | create key input =>
        have hkk : key = some k := by simpa [requestKey] using hr
        subst hkk
        show createOp (some k) now input s = _
        unfold createOp
        rw [hlook]
    | getSession id => simp [requestKey] at hr
    | update key id input =>
        have hkk : key = some k := by simpa [requestKey] using hr
        subst hkk
        show updateOp (some k) now id input s = _
        unfold updateOp
        rw [hlook]
    | complete key id =>
        have hkk : key = some k := by simpa [requestKey] using hr
        subst hkk
        show completeOp (some k) now id s = _
        unfold completeOp
        rw [hlook]
  · constructor
    · intro e he
      cases e with
      | api now r => exact proc_step hk
      | sweep now => exact hk
      | clearCache => exact absurd rfl he
    · intro c hb hv
      subst hb
      show Body.snap
          { c with buyer := (mget s.buyerObjs c.buyerId).getD c.buyer }
        = Body.snap c
      rw [hv]
      rfl

/-- C4: after every successful create and every successful update, the
stored session's status is `ready_for_complete` iff the buyer has a
(sanitized, non-empty) email and a non-empty full name and the session has
at least one line item, and is `incomplete` in every other case. -/
theorem status_iff_complete_fields (s : ServerState) (key : Option String)
    (now : Nat) (hkey : idemLookup key s.processedRequests = none) :
    (∀ input r s1, createOp key now input s = (r, s1) → r.code = 201 →
      ∃ c, mget s1.checkouts (chkId now) = some c ∧ StatusSpec c) ∧
    (∀ id input r s1, updateOp key now id input s = (r, s1) → r.code = 200 →
      ∃ c, mget s1.checkouts id = some c ∧ StatusSpec c) := by
  constructor
  · intro input r s1 hrun hcode
    rcases hv : (match input.line_items with
        | some lis =>
            if lis.length > 0 then validateLineItems lis else Except.ok ()
        | none => Except.ok ()) with msg | u
    · have heq : createOp key now input s
          = ({ code := 400, body := ucpError "invalid_request" msg }, s) := by
        unfold createOp
        simp only [hkey, hv]
      rw [heq] at hrun
      have h1 : Response.mk 400 (ucpError "invalid_request" msg) = r :=
        congrArg Prod.fst hrun
      rw [← h1] at hcode
      simp at hcode
    · cases u
      rcases hb : buildLineItems s.lineItemCounter now (input.line_items.getD [])
        with ⟨items, counter1⟩
      have heq : createOp key now input s
          = ({ code := 201,
               body := Body.snap (newCheckout now input items s.buyerCounter) },
             idemStore key
               (Body.snap (newCheckout now input items s.buyerCounter))
               { s with
                   checkouts := mset s.checkouts (chkId now)
                     (newCheckout now input items s.buyerCounter),
                   lineItemCounter := counter1,
                   buyerObjs := mset s.buyerObjs s.buyerCounter
                     (sanitizedBuyerOf input.buyer),
                   buyerCounter := s.buyerCounter + 1 }) := by
        unfold createOp
        simp only [hkey, hv, hb]
      rw [heq] at hrun
      have h2 : idemStore key
          (Body.snap (newCheckout now input items s.buyerCounter))
          { s with
              checkouts := mset s.checkouts (chkId now)
                (newCheckout now input items s.buyerCounter),
              lineItemCounter := counter1,
              buyerObjs := mset s.buyerObjs s.buyerCounter
                (sanitizedBuyerOf input.buyer),
              buyerCounter := s.buyerCounter + 1 } = s1 :=
        congrArg Prod.snd hrun
      rw [← h2]
      refine ⟨newCheckout now input items s.buyerCounter, ?_,
        statusSpec_new now input items s.buyerCounter⟩
      rw [idemStore_checkouts]
      exact mget_mset_self _ _ _
  · intro id input r s1 hrun hcode
    rcases hcid : mget s.checkouts id with _ | c
    · have heq : updateOp key now id input s
          = ({ code := 404, body := ucpError "not_found" "Checkout not found" },
             s) := by
        unfold updateOp
        simp only [hkey, hcid]
      rw [heq] at hrun
      have h1 : Response.mk 404 (ucpError "not_found" "Checkout not found") = r :=
        congrArg Prod.fst hrun
      rw [← h1] at hcode
      simp at hcode
    · by_cases hexp : c.expires_at < now
      · have heq : updateOp key now id input s
            = ({ code := 404,
                 body := ucpError "expired" "Checkout session has expired" },
               { s with checkouts := mdel s.checkouts id }) := by
          unfold updateOp
          simp only [hkey, hcid, if_pos hexp]
        rw [heq] at hrun
        have h1 : Response.mk 404
            (ucpError "expired" "Checkout session has expired") = r :=
          congrArg Prod.fst hrun
        rw [← h1] at hcode
        simp at hcode
      · rcases hin : input.line_items with _ | lis
        · have heq : updateOp key now id input s
              = finishUpdate key id c input.buyer s := by
            unfold updateOp
            simp only [hkey, hcid, if_neg hexp, hin]
          rw [heq] at hrun
          have h2 : (finishUpdate key id c input.buyer s).2 = s1 :=
            congrArg Prod.snd hrun
          rw [← h2]
          refine ⟨updatedCheckout c input.buyer, ?_,
            statusSpec_updated c input.buyer⟩
          rw [finishUpdate_checkouts]
          exact mget_mset_self _ _ _
        · rcases hv : validateLineItems lis with msg | u
          · have heq : updateOp key now id input s
                = ({ code := 400, body := ucpError "invalid_request" msg }, s) := by
              unfold updateOp
              simp only [hkey, hcid, if_neg hexp, hin, hv]
            rw [heq] at hrun
            have h1 : Response.mk 400 (ucpError "invalid_request" msg) = r :=
              congrArg Prod.fst hrun
            rw [← h1] at hcode
            simp at hcode
          · cases u
            rcases hb : buildLineItems s.lineItemCounter now lis
              with ⟨items, counter1⟩
            have heq : updateOp key now id input s
                = finishUpdate key id
                    { c with line_items := items,
                             totals := calculateTotals items }
                    input.buyer
                    { s with lineItemCounter := counter1 } := by
              unfold updateOp
              simp only [hkey, hcid, if_neg hexp, hin, hv, hb]
            rw [heq] at hrun
            have h2 : (finishUpdate key id
                { c with line_items := items, totals := calculateTotals items }
                input.buyer { s with lineItemCounter := counter1 }).2 = s1 :=
              congrArg Prod.snd hrun
            rw [← h2]
            refine ⟨updatedCheckout
              { c with line_items := items, totals := calculateTotals items }
              input.buyer, ?_, statusSpec_updated _ _⟩
            rw [finishUpdate_checkouts]
            exact mget_mset_self _ _ _

/-- C9: entries whose product id matches no catalog product are silently
dropped by line-item construction (building from the list is the same as
building from the list restricted to known products), and a structurally
valid `create` carrying such entries still succeeds with `201` — unknown
product references never fail the call. -/
theorem unknown_products_dropped (lis : List LineItemInput)
    (hval : validateLineItems lis = .ok ()) (counter now : Nat)
    (s : ServerState) :
    buildLineItems counter now lis
      = buildLineItems counter now (lis.filter knownProduct) ∧
    (createOp none now
        { line_items := some lis, buyer := none, currency := none } s).1.code
      = 201 := by
  constructor
  · exact buildLineItems_filter counter now lis
  · have hlen : lis.length > 0 := by
      rcases (validateLineItems_ok hval).1 with hne
      cases lis with
      | nil => exact absurd rfl hne
      | cons a as => simp
    rcases hb : buildLineItems s.lineItemCounter now lis with ⟨items, counter1⟩
    have heq : createOp none now
        { line_items := some lis, buyer := none, currency := none } s
        = ({ code := 201,
             body := Body.snap (newCheckout now
               { line_items := some lis, buyer := none, currency := none }
               items s.buyerCounter) },
           idemStore none
             (Body.snap (newCheckout now
               { line_items := some lis, buyer := none, currency := none }
               items s.buyerCounter))
             { s with
                 checkouts := mset s.checkouts (chkId now)
                   (newCheckout now
                     { line_items := some lis, buyer := none, currency := none }
                     items s.buyerCounter),
                 lineItemCounter := counter1,
                 buyerObjs := mset s.buyerObjs s.buyerCounter
                   (sanitizedBuyerOf none),
                 buyerCounter := s.buyerCounter + 1 }) := by
      unfold createOp
      simp only [idemLookup, if_pos hlen, hval, Option.getD_some, hb]
    rw [heq]

/-- C10: the idempotency cache is one map shared by create, update and
complete and keyed solely by the idempotency key: once a create has
recorded key `k`, any later mutating call presenting `k` — another
operation, another session id — is answered with the recorded body and
executes nothing. -/
theorem idem_cache_shared_across_ops (s : ServerState) (k : String)
    (now1 : Nat) (input : CreateInput) (r1 : Response) (s1 : ServerState)
    (hne : k ≠ "") (hfresh : mget s.processedRequests k = none)
    (hrun : createOp (some k) now1 input s = (r1, s1)) (hcode : r1.code = 201) :
    mget s1.processedRequests k = some r1.body ∧
    (∀ now2 id inp2, updateOp (some k) now2 id inp2 s1
        = ({ code := 200, body := r1.body }, s1)) ∧
    (∀ now2 id, completeOp (some k) now2 id s1
        = ({ code := 200, body := r1.body }, s1)) ∧
    (∀ now2 inp2, createOp (some k) now2 inp2 s1
        = ({ code := 200, body := r1.body }, s1)) := by
  have hlook : idemLookup (some k) s.processedRequests = none := by
    simp [idemLookup, hne, hfresh]
  have hkey2 : mget s1.processedRequests k = some r1.body ∧
      renderBody r1.body s1.buyerObjs = r1.body := by
    rcases hv : (match input.line_items with
        | some lis =>
            if lis.length > 0 then validateLineItems lis else Except.ok ()
        | none => Except.ok ()) with msg | u
    · have heq : createOp (some k) now1 input s
          = ({ code := 400, body := ucpError "invalid_request" msg }, s) := by
        unfold createOp
        simp only [hlook, hv]
      rw [heq] at hrun
      have h1 : Response.mk 400 (ucpError "invalid_request" msg) = r1 :=
        congrArg Prod.fst hrun
      rw [← h1] at hcode
      simp at hcode
    · cases u
      rcases hb : buildLineItems s.lineItemCounter now1 (input.line_items.getD [])
        with ⟨items, counter1⟩
      have heq : createOp (some k) now1 input s
          = ({ code := 201,
               body := Body.snap (newCheckout now1 input items s.buyerCounter) },
             idemStore (some k)
               (Body.snap (newCheckout now1 input items s.buyerCounter))
               { s with
                   checkouts := mset s.checkouts (chkId now1)
                     (newCheckout now1 input items s.buyerCounter),
                   lineItemCounter := counter1,
                   buyerObjs := mset s.buyerObjs s.buyerCounter
                     (sanitizedBuyerOf input.buyer),
                   buyerCounter := s.buyerCounter + 1 }) := by
        unfold createOp
        simp only [hlook, hv, hb]
      rw [heq] at hrun
      have h1 : Response.mk 201
          (Body.snap (newCheckout now1 input items s.buyerCounter)) = r1 :=
        congrArg Prod.fst hrun
      have h2 : idemStore (some k)
          (Body.snap (newCheckout now1 input items s.buyerCounter))
          { s with
              checkouts := mset s.checkouts (chkId now1)
                (newCheckout now1 input items s.buyerCounter),
              lineItemCounter := counter1,
              buyerObjs := mset s.buyerObjs s.buyerCounter
                (sanitizedBuyerOf input.buyer),
              buyerCounter := s.buyerCounter + 1 } = s1 :=
        congrArg Prod.snd hrun
      constructor
      · rw [← h2, ← h1]
        simp only [idemStore, if_neg hne]
        exact mget_mset_self _ _ _
      · rw [← h2, ← h1]
        rw [idemStore_buyerObjs]
        show renderBody
            (Body.snap (newCheckout now1 input items s.buyerCounter))
            (mset s.buyerObjs s.buyerCounter (sanitizedBuyerOf input.buyer))
          = _
        simp only [renderBody]
        rw [newCheckout_buyerId, mget_mset_self]
        rfl
  have hlook1 : idemLookup (some k) s1.processedRequests = some r1.body := by
    simp [idemLookup, hne, hkey2.1]
  refine ⟨hkey2.1, ?_, ?_, ?_⟩
  · intro now2 id inp2
    unfold updateOp
    simp only [hlook1]
    rw [hkey2.2]
  · intro now2 id
    unfold completeOp
    simp only [hlook1]
    rw [hkey2.2]
  · intro now2 inp2
    unfold createOp
    simp only [hlook1]
    rw [hkey2.2]

/-- The create request used by the C1 counterexample: one known product
and a complete buyer, so that the session is immediately completable. -/
def reopenInput : CreateInput :=
  { line_items := some [{ itemId := some "1", quantity := some 1 }],
    buyer := some { email := some "a@b.co", full_name := some "Al" },
    currency := none }

/-- State after `create` at time 0 (session `chk_0`, `ready_for_complete`). -/
def reopenS1 : ServerState := (createOp none 0 reopenInput initState).2

/-- State after `complete` at time 1 (session `chk_0` is `completed`). -/
def reopenS2 : ServerState := (completeOp none 1 "chk_0" reopenS1).2

/-- State after a subsequent empty `update` at time 2 on the completed
session. -/
def reopenS3 : ServerState :=
  (updateOp none 2 "chk_0" { line_items := none, buyer := none } reopenS2).2

/-- C1 counterexample: after `complete` has set the stored status of
`chk_0` to `completed`, a later `update` on the same session id does NOT
leave the stored status equal to `completed`: it recomputes it and stores
`ready_for_complete` — the state machine does have a path back from
`completed`. -/
theorem update_reopens_completed_counterexample :
    (mget reopenS2.checkouts "chk_0").map Checkout.status = some "completed" ∧
    (mget reopenS3.checkouts "chk_0").map Checkout.status
      = some "ready_for_complete" := by
  constructor
  · decide
  · decide

/-- Structural validity of an update body (when line items are supplied
they pass `validateLineItems`), i.e. the update does not 400. -/
def UpdateValidOk (input : UpdateInput) : Prop :=
  match input.line_items with
  | none => True
  | some lis => validateLineItems lis = Except.ok ()

theorem updatedCheckout_status_cases (c : Checkout) (patch : Option BuyerInput) :
    (updatedCheckout c patch).status = "ready_for_complete" ∨
    (updatedCheckout c patch).status = "incomplete" := by
  unfold updatedCheckout
  exact determineStatus_cases _

/-- C1 amended: once a session is `completed`, a later successful update
on it recomputes the status with `determineStatus` and stores
`ready_for_complete` or `incomplete` — never `completed`.  (Only `get` and
`complete` leave a completed session's status in place.) -/
theorem update_reopens_completed (s : ServerState) (id : String) (c : Checkout)
    (now : Nat) (key : Option String) (input : UpdateInput)
    (hkey : idemLookup key s.processedRequests = none)
    (hc : mget s.checkouts id = some c)
    (hst : c.status = "completed")
    (hexp : ¬ c.expires_at < now)
    (hval : UpdateValidOk input) :
    ∃ c2, mget (updateOp key now id input s).2.checkouts id = some c2 ∧
      (c2.status = "ready_for_complete" ∨ c2.status = "incomplete") ∧
      c2.status ≠ "completed" := by
  have hne : ∀ c3 : Checkout,
      (c3.status = "ready_for_complete" ∨ c3.status = "incomplete") →
      c3.status ≠ "completed" := by
    intro c3 h3
    rcases h3 with h3 | h3 <;> rw [h3] <;> decide
  rcases hin : input.line_items with _ | lis
  · have heq : updateOp key now id input s
        = finishUpdate key id c input.buyer s := by
      unfold updateOp
      simp only [hkey, hc, if_neg hexp, hin]
    rw [heq, finishUpdate_checkouts]
    refine ⟨updatedCheckout c input.buyer, mget_mset_self _ _ _, ?_, ?_⟩
    · exact updatedCheckout_status_cases c input.buyer
    · exact hne _ (updatedCheckout_status_cases c input.buyer)
  · have hv : validateLineItems lis = Except.ok () := by
      have := hval
      unfold UpdateValidOk at this
      rw [hin] at this
      exact this
    rcases hb : buildLineItems s.lineItemCounter now lis with ⟨items, counter1⟩
    have heq : updateOp key now id input s
        = finishUpdate key id
            { c with line_items := items, totals := calculateTotals items }
            input.buyer { s with lineItemCounter := counter1 } := by
      unfold updateOp
      simp only [hkey, hc, if_neg hexp, hin, hv, hb]
    rw [heq, finishUpdate_checkouts]
    refine ⟨updatedCheckout
      { c with line_items := items, totals := calculateTotals items }
      input.buyer, mget_mset_self _ _ _, ?_, ?_⟩
    · exact updatedCheckout_status_cases _ input.buyer
    · exact hne _ (updatedCheckout_status_cases _ input.buyer)

/-- C8 counterexample setup: a `create` whose single line item carries the
fractional JSON quantity `2.5` (a perfectly valid JSON number). -/
def fracInput : CreateInput :=
  { line_items := some [ { itemId := some "1", quantity := some (2.5 : ℚ) } ],
    buyer := none, currency := none }

/-- State after the fractional-quantity `create` at time 0. -/
def fracS : ServerState := (createOp none 0 fracInput initState).2

/-- C8 counterexample: the original claim's "quantity is an integer"
conjunct is false.  `validateLineItems` only checks truthiness and the
1..100 range (`server.js:398-404`), never integrality, so a create with
JSON quantity `2.5` is accepted (`201`) and the stored line item's
quantity is `2.5`, which equals no integer. -/
theorem quantity_integer_counterexample :
    (createOp none 0 fracInput initState).1.code = 201 ∧
    (mget fracS.checkouts "chk_0").map
        (fun c => c.line_items.map LineItem.quantity)
      = some [(2.5 : ℚ)] ∧
    ∀ n : ℤ, ((n : ℚ)) ≠ (2.5 : ℚ) := by
  refine ⟨by decide, by decide, ?_⟩
  intro n h
  have hd : ((n : ℚ)).den = ((2.5 : ℚ)).den := congrArg Rat.den h
  rw [Rat.den_intCast] at hd
  exact absurd hd (by decide)

/-- C8 amended: in every reachable state, every stored line item's
quantity lies in the range 1..100 (as a rational JSON number; the server
never asserts integrality). -/
theorem quantity_bounds_invariant (s : ServerState) (hs : Reachable s)
    (id : String) (c : Checkout) (hc : mget s.checkouts id = some c) :
    ∀ li ∈ c.line_items, 1 ≤ li.quantity ∧ li.quantity ≤ 100 :=
  (reachable_storeInv hs (id, c) (mget_mem hc)).2

/-- Lower bound on creation times of the events of a later trace. -/
def createAfter (lb : Nat) : Event → Bool
  | .api t (.create _ _) => lb ≤ t
  | _ => true

/-- C3: a get/update/complete on a stored session whose `expires_at` is
strictly in the past answers `404` with the `expired` code (distinct from
`not_found`), removes the session from the store, and the session is then
permanently unreachable: after any further events (creates happening no
earlier than the eviction), a get of that id answers plain `not_found`. -/
theorem expired_eviction_permanent (s : ServerState) (hs : Reachable s)
    (id : String) (c : Checkout) (now : Nat)
    (hc : mget s.checkouts id = some c) (hexp : c.expires_at < now)
    (r : Request)
    (hr : r = Request.getSession id ∨
      (∃ key input, r = Request.update key id input ∧
        idemLookup key s.processedRequests = none) ∨
      (∃ key, r = Request.complete key id ∧
        idemLookup key s.processedRequests = none)) :
    (step now r s).1
      = { code := 404,
          body := ucpError "expired" "Checkout session has expired" } ∧
    mget (step now r s).2.checkouts id = none ∧
    ∀ tr, (∀ e ∈ tr, createAfter now e = true) → ∀ tg,
      step tg (Request.getSession id) (runTrace (step now r s).2 tr)
        = ({ code := 404, body := ucpError "not_found" "Checkout not found" },
           runTrace (step now r s).2 tr) := by
  have hstep : step now r s
      = ({ code := 404,
           body := ucpError "expired" "Checkout session has expired" },
         { s with checkouts := mdel s.checkouts id }) := by
    rcases hr with h | ⟨key, input, h, hkey⟩ | ⟨key, h, hkey⟩
    · subst h
      show getOp now id s = _
      unfold getOp
      simp only [hc, if_pos hexp]
    · subst h
      show updateOp key now id input s = _
      unfold updateOp
      simp only [hkey, hc, if_pos hexp]
    · subst h
      show completeOp key now id s = _
      unfold completeOp
      simp only [hkey, hc, if_pos hexp]
  rw [hstep]
  have habsent :
      mget ({ s with checkouts := mdel s.checkouts id }).checkouts id = none := by
    show mget (mdel s.checkouts id) id = none
    rw [mget_mdel]
    simp
  refine ⟨rfl, habsent, ?_⟩
  intro tr htr tg
  obtain ⟨⟨t, hid0, hexpat0⟩, _⟩ := reachable_storeInv hs (id, c) (mget_mem hc)
  have hid : id = chkId t := hid0
  have hexpat : c.expires_at = t + sessionTTL := hexpat0
  have habs2 : mget
      (runTrace { s with checkouts := mdel s.checkouts id } tr).checkouts id
        = none := by
    refine absent_trace habsent ?_
    intro e he now2 key2 input2 hee
    subst hee
    have h1 := htr _ he
    simp only [createAfter] at h1
    have h2 : now ≤ now2 := of_decide_eq_true h1
    intro hchk
    rw [hid] at hchk
    have h3 : now2 = t := chkId_inj hchk
    rw [hexpat] at hexp
    omega
  show getOp tg id _ = _
  unfold getOp
  simp only [habs2]

/-! ### Concrete witness scenarios -/

/-- State after a bare `create` (no items, no buyer) at time 0. -/
def stateW : ServerState :=
  (createOp none 0 { line_items := none, buyer := none, currency := none }
    initState).2

/-- The session stored by the bare `create` of `stateW`. -/
def emptyCheckout0 : Checkout :=
  { id := "chk_0", line_items := [],
    buyer := { email := none, full_name := none },
    buyerId := 0,
    currency := "USD",
    totals := [ { type := "subtotal", amount := 0, display_text := some "Subtotal" },
                { type := "tax", amount := 0, display_text := some "Tax (8%)" },
                { type := "total", amount := 0, display_text := some "Total" } ],
    messages := [missingEmailMsg, missingNameMsg],
    expires_at := sessionTTL, status := "incomplete", order := none }

/-- The session stored by the `create` of `reopenS1` (one rose, full buyer). -/
def roseCheckout1 : Checkout :=
  { id := "chk_0",
    line_items := [ { id := "li_1_0",
                      item := { id := "1", title := "Red Roses", price := 299 },
                      quantity := 1,
                      totals := [ { type := "subtotal", amount := 299,
                                    display_text := none } ] } ],
    buyer := { email := some "a@b.co", full_name := some "Al" },
    buyerId := 0,
    currency := "USD",
    totals := [ { type := "subtotal", amount := 299, display_text := some "Subtotal" },
                { type := "tax", amount := 24, display_text := some "Tax (8%)" },
                { type := "total", amount := 323, display_text := some "Total" } ],
    messages := [], expires_at := sessionTTL, status := "ready_for_complete",
    order := none }

/-- The single line item of `roseCheckout1`. -/
def roseLineItem : LineItem :=
  { id := "li_1_0", item := { id := "1", title := "Red Roses", price := 299 },
    quantity := 1,
    totals := [ { type := "subtotal", amount := 299, display_text := none } ] }

/-- The value of `roseCheckout1` after `complete` at time 1 (the session of `reopenS2`). -/
def roseCheckoutDone : Checkout :=
  { roseCheckout1 with
      status := "completed",
      messages := [orderConfirmedMsg],
      order := some { id := "ORD_1",
                      permalink_url := "http://localhost:3000/orders/ORD_1" } }

/-- State after a `create` with idempotency key `K` at time 5. -/
def stateK : ServerState :=
  (createOp (some "K") 5
    { line_items := none, buyer := none, currency := none } initState).2

/-- The response body recorded under key `K` in `stateK`. -/
def bodyK : Body :=
  (createOp (some "K") 5
    { line_items := none, buyer := none, currency := none } initState).1.body

theorem update_reopens_completed_witness :
    ∃ c2, mget (updateOp none 2 "chk_0"
        { line_items := none, buyer := none } reopenS2).2.checkouts "chk_0"
          = some c2 ∧
      (c2.status = "ready_for_complete" ∨ c2.status = "incomplete") ∧
      c2.status ≠ "completed" :=
  update_reopens_completed reopenS2 "chk_0" roseCheckoutDone 2 none
    { line_items := none, buyer := none } rfl (by decide) (by decide)
    (by decide) trivial

theorem idem_replay_renders_cached_witness :
    (∀ now r, requestKey r = some "K" →
      step now r stateK
        = ({ code := 200, body := renderBody bodyK stateK.buyerObjs },
           stateK)) ∧
    (∀ e, e ≠ Event.clearCache →
      mget (applyEvent stateK e).processedRequests "K" = some bodyK) ∧
    (∀ c, bodyK = Body.snap c →
      mget stateK.buyerObjs c.buyerId = some c.buyer →
      renderBody bodyK stateK.buyerObjs = bodyK) :=
  idem_replay_renders_cached stateK "K" bodyK (by decide) (by decide)

theorem expired_eviction_permanent_witness :
    (step 21600001 (Request.getSession "chk_0") reopenS1).1
      = { code := 404,
          body := ucpError "expired" "Checkout session has expired" } ∧
    mget (step 21600001 (Request.getSession "chk_0") reopenS1).2.checkouts
        "chk_0" = none ∧
    ∀ tr, (∀ e ∈ tr, createAfter 21600001 e = true) → ∀ tg,
      step tg (Request.getSession "chk_0")
          (runTrace (step 21600001 (Request.getSession "chk_0") reopenS1).2 tr)
        = ({ code := 404, body := ucpError "not_found" "Checkout not found" },
           runTrace (step 21600001 (Request.getSession "chk_0") reopenS1).2 tr) :=
  expired_eviction_permanent reopenS1
    (Reachable.next (Event.api 0 (Request.create none reopenInput))
      Reachable.init)
    "chk_0" roseCheckout1 21600001 (by decide) (by decide) _ (Or.inl rfl)

theorem status_iff_complete_fields_witness :
    (∀ input r s1, createOp none 7 input initState = (r, s1) → r.code = 201 →
      ∃ c, mget s1.checkouts (chkId 7) = some c ∧ StatusSpec c) ∧
    (∀ id input r s1, updateOp none 7 id input initState = (r, s1) →
      r.code = 200 →
      ∃ c, mget s1.checkouts id = some c ∧ StatusSpec c) :=
  status_iff_complete_fields initState none 7 rfl

theorem invalid_line_items_frame_witness :
    updateOp none 3 "chk_0"
        { line_items := some [{ itemId := some "1", quantity := some 101 }],
          buyer := none } stateW
      = ({ code := 400,
           body := ucpError "invalid_request"
             "Quantity must be between 1 and 100" }, stateW) :=
  invalid_line_items_frame stateW "chk_0" emptyCheckout0 3 none
    { line_items := some [{ itemId := some "1", quantity := some 101 }],
      buyer := none }
    [{ itemId := some "1", quantity := some 101 }]
    "Quantity must be between 1 and 100"
    rfl (by decide) (by decide) rfl rfl

theorem complete_not_ready_frame_witness :
    completeOp none 3 "chk_0" stateW
      = ({ code := 400,
           body := Body.snap { emptyCheckout0 with messages := [notReadyMsg] } },
         stateW) :=
  complete_not_ready_frame stateW "chk_0" emptyCheckout0 3 none
    rfl (by decide) (by decide) (by decide)

theorem quantity_bounds_invariant_witness :
    1 ≤ roseLineItem.quantity ∧ roseLineItem.quantity ≤ 100 :=
  quantity_bounds_invariant reopenS1
    (Reachable.next (Event.api 0 (Request.create none reopenInput))
      Reachable.init)
    "chk_0" roseCheckout1 (by decide) roseLineItem (by decide)

theorem unknown_products_dropped_witness :
    buildLineItems 0 4
        [ { itemId := some "1", quantity := some 2 },
          { itemId := some "99", quantity := some 3 } ]
      = buildLineItems 0 4
          ([ { itemId := some "1", quantity := some 2 },
             { itemId := some "99", quantity := some 3 } ].filter knownProduct) ∧
    (createOp none 4
        { line_items := some
            [ { itemId := some "1", quantity := some 2 },
              { itemId := some "99", quantity := some 3 } ],
          buyer := none, currency := none } initState).1.code = 201 :=
  unknown_products_dropped
    [ { itemId := some "1", quantity := some 2 },
      { itemId := some "99", quantity := some 3 } ]
    rfl 0 4 initState

theorem idem_cache_shared_across_ops_witness :
    mget (createOp (some "K") 5
        { line_items := none, buyer := none, currency := none }
        initState).2.processedRequests "K"
      = some (createOp (some "K") 5
          { line_items := none, buyer := none, currency := none }
          initState).1.body ∧
    (∀ now2 id inp2, updateOp (some "K") now2 id inp2
        (createOp (some "K") 5
          { line_items := none, buyer := none, currency := none }
          initState).2
      = ({ code := 200,
           body := (createOp (some "K") 5
             { line_items := none, buyer := none, currency := none }
             initState).1.body },
         (createOp (some "K") 5
           { line_items := none, buyer := none, currency := none }
           initState).2)) ∧
    (∀ now2 id, completeOp (some "K") now2 id
        (createOp (some "K") 5
          { line_items := none, buyer := none, currency := none }
          initState).2
      = ({ code := 200,
           body := (createOp (some "K") 5
             { line_items := none, buyer := none, currency := none }
             initState).1.body },
         (createOp (some "K") 5
           { line_items := none, buyer := none, currency := none }
           initState).2)) ∧
    (∀ now2 inp2, createOp (some "K") now2 inp2
        (createOp (some "K") 5
          { line_items := none, buyer := none, currency := none }
          initState).2
      = ({ code := 200,
           body := (createOp (some "K") 5
             { line_items := none, buyer := none, currency := none }
             initState).1.body },
         (createOp (some "K") 5
           { line_items := none, buyer := none, currency := none }
           initState).2)) :=
  idem_cache_shared_across_ops initState "K" 5
    { line_items := none, buyer := none, currency := none } _ _
    (by decide) (by decide) rfl (by decide)
